/-
Verification of the NovaSearch orchestration engine (src/nova_search.py).

The development is a shallow embedding of the orchestrator and its
components: query/URL handling, the cache store with eviction, the
per-provider token-bucket rate limiter, the per-provider circuit breaker,
and the retry/backoff control loop of `NovaSearch.search`.

Modelling conventions:
- Python floats (timestamps, token counts) are rationals (`ℚ`).
- Python dicts keyed by strings are association lists in insertion order;
  assignment to an existing key replaces the value in place, assignment to
  a fresh key appends (matching CPython dict semantics).
- Mutation of `self` is explicit state passing over `SearchState`.
- `time.time()` is an explicit `now : ℚ` argument; a single `search` call
  uses one value of `now` for all of its internal clock reads.
- Raised exceptions are `Except PyErr`; network adapters
  (`_search_brave` / `_search_google` / `_search_duckduckgo`) are external
  collaborators and enter the model as an oracle `Sys.adapter`, and
  `hashlib.md5(...).hexdigest()` as an oracle `Sys.md5hex`.
- Disk persistence (`_save_cache_to_disk`, `_load_cache_from_disk`) is
  fail-open I/O and is modelled as a no-op; the in-memory cache starts
  empty.
- Every run of `search` additionally returns the list of observable
  effects (`Event`) it performed, in order: rate-limit checks, sleeps,
  adapter invocations, breaker error recordings and cache stores.
-/
import Mathlib

/-- A raised Python exception, as far as the orchestrator distinguishes
them.  `str(e)` of an exception constructed with a single message argument
is that message, which is all `search` ever renders. -/
inductive PyErr where
  | typeError (msg : String)
  | providerError (msg : String)
deriving DecidableEq, Repr

/-- `str(e)` for an exception value. -/
def PyErr.toStr : PyErr → String
  | .typeError m => m
  | .providerError m => m

/-- `str(last_error)` where `last_error` may still be `None`
(Python renders `None` as the string "None"). -/
def pyStrOpt : Option PyErr → String
  | none => "None"
  | some e => e.toStr

/-- One search result dict `{title, url, description, provider}` as built
by the provider adapters. -/
structure ResultItem where
  title : String
  url : String
  description : String
  provider : String
deriving DecidableEq, Repr

/-- One cache entry dict `{results, provider, timestamp, type}` as stored
by `search`. -/
structure CacheEntry where
  results : List ResultItem
  provider : String
  timestamp : ℚ
  type : String
deriving DecidableEq, Repr

/-- One token bucket `{tokens, max, refill_rate}` from `self.rate_limit`. -/
structure Bucket where
  tokens : ℚ
  max : ℚ
  refillRate : ℚ
deriving DecidableEq, Repr

/-- One entry of `self.provider_stats`: `{errors, circuit_open}` plus
`circuit_open_time`, which the source reads with `.get(…, 0)` so a missing
key behaves as `0`. -/
structure ProviderStat where
  errors : Nat
  circuitOpen : Bool
  circuitOpenTime : ℚ
deriving DecidableEq, Repr

/-- The mutable state of a `NovaSearch` instance that the orchestration
engine touches: `self.cache`, `self.provider_stats`, `self.rate_limit` and
the lazily created `self._last_refill` attribute (`none` while the
attribute does not exist yet, mirroring the `hasattr` check). -/
structure SearchState where
  cache : List (String × CacheEntry)
  providerStats : List (String × ProviderStat)
  rateLimit : List (String × Bucket)
  lastRefill : Option (List (String × ℚ))
deriving DecidableEq, Repr

/-- External collaborators of the orchestrator: the md5 hex digest from
`hashlib` and the per-provider network adapters.  `adapter p q ty` is the
outcome of `_search_brave` / `_search_google` / `_search_duckduckgo` for
provider `p`: either a raised exception or the parsed result list. -/
structure Sys where
  md5hex : String → String
  adapter : String → String → String → Except PyErr (List ResultItem)

/-- Observable effects of a `search` run, in program order. -/
inductive Event where
  | rateCheck (p : String) (granted : Bool)
  | sleepEv (backoff : ℚ)
  | adapterCall (p : String)
  | recordError (p : String)
  | cacheStore (key : String)
deriving DecidableEq, Repr

/-- Whether an event is a rate-limiter denial. -/
def Event.isDenial : Event → Bool
  | .rateCheck _ granted => !granted
  | _ => false

/-- Lookup in an association list (Python `d[k]` / `k in d`). -/
def lookupA {α : Type} (k : String) : List (String × α) → Option α
  | [] => none
  | (k', v) :: rest => if k' = k then some v else lookupA k rest

/-- Assignment `d[k] = v` on a Python dict: replaces in place if the key
exists, appends otherwise. -/
def assocSet {α : Type} (k : String) (v : α) : List (String × α) → List (String × α)
  | [] => [(k, v)]
  | (k', v') :: rest => if k' = k then (k, v) :: rest else (k', v') :: assocSet k v rest

/-- The fixed denylist of `_sanitize_query`:
`['<', '>', '"', "'", '&', ';', '|', '`', '$']`
(the quote, apostrophe and backtick characters are written by code point). -/
def dangerousChars : List Char :=
  ['<', '>', Char.ofNat 34, Char.ofNat 39, '&', ';', '|', Char.ofNat 96, '$']

/-- Python `str.strip()` whitespace (the ASCII whitespace characters). -/
def pySpace (c : Char) : Bool :=
  c = ' ' || c = '\t' || c = '\n' || c = '\r' || c = Char.ofNat 11 || c = Char.ofNat 12

/-- The loop `for char in dangerous: query = query.replace(char, '')`:
each `replace(char, '')` deletes every occurrence of that character. -/
def removeDangerous (l : List Char) : List Char :=
  dangerousChars.foldl (fun acc c => acc.filter (fun a => decide (a ≠ c))) l

/-- Python `s.strip()`: drop leading then trailing whitespace. -/
def pyStrip (l : List Char) : List Char :=
  ((l.dropWhile pySpace).reverse.dropWhile pySpace).reverse

/-- `NovaSearch._sanitize_query`: empty input short-circuits; otherwise
truncate to `max_query_length` (500), delete the denylisted characters,
and strip surrounding whitespace. -/
def sanitize_query (q : String) : String :=
  if q = "" then ""
  else String.mk (pyStrip (removeDangerous (q.data.take 500)))

/-- Python `str.lower()` (character-wise lowercasing). -/
def pyLower (s : String) : String :=
  String.mk (s.data.map Char.toLower)

/-- Python `needle in hay` on strings: substring test. -/
def substrB (needle hay : String) : Bool :=
  hay.data.tails.any (fun t => needle.data.isPrefixOf t)

/-- Keyword table for the "trending" intent in `_detect_query_intent`. -/
def trendingKw : List String :=
  ["news", "today", "latest", "breaking", "update", "2024", "2025", "2026"]

/-- Keyword table for the "transactional" intent in `_detect_query_intent`. -/
def transKw : List String :=
  ["buy", "price", "cost", "discount", "sale", "cheap", "shop"]

/-- `NovaSearch._detect_query_intent`. -/
def detect_query_intent (q : String) : String :=
  let ql := pyLower q
  if trendingKw.any (fun kw => substrB kw ql) then "trending"
  else if transKw.any (fun kw => substrB kw ql) then "transactional"
  else "informational"

/-- The type-keyed TTL table `config['cache_ttl'].get(query_type, 86400)`. -/
def configTTL (t : String) : ℚ :=
  if t = "news" then 900
  else if t = "general" then 86400
  else if t = "trending" then 300
  else if t = "transactional" then 1800
  else 86400

/-- The intent-keyed TTL table `intent_ttl.get(intent, 86400)` of
`_is_cache_valid`. -/
def intentTTL (i : String) : ℚ :=
  if i = "trending" then 300
  else if i = "transactional" then 1800
  else if i = "informational" then 86400
  else 86400

/-- `NovaSearch._is_cache_valid` for a present (non-empty) cache entry:
age against the intent-based TTL when a query is supplied, else against
the type-keyed table. -/
def is_cache_valid (c : CacheEntry) (q : String) (now : ℚ) : Bool :=
  let age := now - c.timestamp
  let ttl := if q ≠ "" then intentTTL (detect_query_intent q) else configTTL c.type
  decide (age < ttl)

/-- `NovaSearch._get_cache_key`: md5 hex digest of
`f"{search_type}:{query.lower()}"`. -/
def get_cache_key (sys : Sys) (q ty : String) : String :=
  sys.md5hex (ty ++ ":" ++ pyLower q)

/-- `self.max_cache_size`. -/
def maxCacheSize : Nat := 1000

/-- `NovaSearch._evict_cache`: when the entry count exceeds the maximum,
stable-sort the items by timestamp descending (Python `sorted` with
`reverse=True` is stable) and keep the first `max_cache_size`.  The
source reads the sort key with `.get('timestamp', 0)`; entries written
by `search` always carry a timestamp, so the default is never used
here. -/
def evict_cache (cache : List (String × CacheEntry)) : List (String × CacheEntry) :=
  if cache.length > maxCacheSize then
    (cache.mergeSort (fun a b => decide (b.2.timestamp ≤ a.2.timestamp))).take maxCacheSize
  else cache

/-- The token refill of `_check_rate_limit` for bucket `b` of provider
`p`: no refill while the `_last_refill` attribute does not exist; else
`min(max, tokens + elapsed * refill_rate)` with
`elapsed = now - _last_refill.get(p, now)`. -/
def refilledTokens (st : SearchState) (b : Bucket) (p : String) (now : ℚ) : ℚ :=
  match st.lastRefill with
  | none => b.tokens
  | some m => min b.max (b.tokens + (now - ((lookupA p m).getD now)) * b.refillRate)

/-- `NovaSearch._check_rate_limit`: providers without a configured bucket
are always granted; otherwise refill, stamp `_last_refill[p] = now`, then
grant (and decrement by 1) iff at least one token is available. -/
def check_rate_limit (st : SearchState) (p : String) (now : ℚ) : Bool × SearchState :=
  match lookupA p st.rateLimit with
  | none => (true, st)
  | some rl =>
    let tokens1 := refilledTokens st rl p now
    let m' := assocSet p now (st.lastRefill.getD [])
    if 1 ≤ tokens1 then
      (true, { st with
                rateLimit := assocSet p ({ rl with tokens := tokens1 - 1 }) st.rateLimit
                lastRefill := some m' })
    else
      (false, { st with
                rateLimit := assocSet p ({ rl with tokens := tokens1 }) st.rateLimit
                lastRefill := some m' })

/-- The per-provider update of `_record_provider_error`: create the stats
dict on first error, increment `errors`, and open the circuit (stamping
`circuit_open_time = now`) once `errors >= 5`. -/
def bumpStat (s : Option ProviderStat) (now : ℚ) : ProviderStat :=
  let s0 := s.getD ⟨0, false, 0⟩
  let s1 := { s0 with errors := s0.errors + 1 }
  if s1.errors ≥ 5 then { s1 with circuitOpen := true, circuitOpenTime := now } else s1

/-- `NovaSearch._record_provider_error`. -/
def record_provider_error (st : SearchState) (p : String) (now : ℚ) : SearchState :=
  { st with providerStats :=
      assocSet p (bumpStat (lookupA p st.providerStats) now) st.providerStats }

/-- `NovaSearch._is_provider_healthy`: healthy when untracked or closed;
when open, self-reset (`circuit_open = False`) and report healthy once
more than 60 seconds have passed since `circuit_open_time`. -/
def is_provider_healthy (st : SearchState) (p : String) (now : ℚ) : Bool × SearchState :=
  match lookupA p st.providerStats with
  | none => (true, st)
  | some s =>
    if s.circuitOpen then
      if now - s.circuitOpenTime > 60 then
        (true, { st with providerStats := assocSet p ({ s with circuitOpen := false }) st.providerStats })
      else (false, st)
    else (true, st)

/-- The fallback filter of `_get_provider_order`: keep each fallback
provider the circuit breaker reports healthy, threading the breaker
self-reset writes. -/
def healthyFallback : SearchState → ℚ → List String → List String × SearchState
  | st, _, [] => ([], st)
  | st, now, p :: ps =>
    let r1 := is_provider_healthy st p now
    let r2 := healthyFallback r1.2 now ps
    (if r1.1 then p :: r2.1 else r2.1, r2.2)

/-- `NovaSearch._get_provider_order`: the configured primary (`brave`,
unconditionally) followed by the healthy configured fallbacks
(`google`, `duckduckgo`) in order. -/
def get_provider_order (st : SearchState) (now : ℚ) : List String × SearchState :=
  let r := healthyFallback st now ["google", "duckduckgo"]
  ("brave" :: r.1, r.2)

/-- The exception raised by the backoff expression
`(hashlib.md5(query.encode()).hexdigest()[0:2] % 10) / 10`:
`hexdigest()[0:2]` is a `str`, so when it contains no conversion
specifier (no `%` character — always the case for a hex digest) the `%`
operator raises `TypeError: not all arguments converted during string
formatting`; were a specifier present, `%` would produce a `str` and the
subsequent `/ 10` would raise a `TypeError` about `/` on `str` and `int`.
Either way the expression raises before any value is produced. -/
def backoffTypeError (digest2 : String) : PyErr :=
  if digest2.data.contains '%' then
    .typeError "unsupported operand type(s) for /: str and int"
  else
    .typeError "not all arguments converted during string formatting"

/-- The backoff-with-jitter expression of `search` (line 232), which
always raises (see `backoffTypeError`) and never yields a number. -/
def backoffExpr (digest2 : String) : Except PyErr ℚ :=
  .error (backoffTypeError digest2)

/-- `NovaSearch._search_with_provider`: dispatch to the (external)
adapter for the three known provider names, raise for any other name. -/
def search_with_provider (sys : Sys) (p q ty : String) : Except PyErr (List ResultItem) :=
  if p = "brave" ∨ p = "google" ∨ p = "duckduckgo" then sys.adapter p q ty
  else .error (.providerError ("Unknown provider: " ++ p))

/-- Outcome of the body of one provider iteration of the attempt loop. -/
inductive TryOut where
  | raised (e : PyErr)
  | succeeded (results : List ResultItem) (st : SearchState)
  | fellThrough
deriving DecidableEq, Repr

/-- The adapter call and, on a non-empty result list, the cache
store-and-evict of the loop body (lines 235-251).  A raised adapter error
and an empty result list leave the state untouched; disk persistence is a
fail-open no-op. -/
def tryAdapter (sys : Sys) (q ty cacheKey : String) (now : ℚ) (p : String)
    (st : SearchState) : TryOut × List Event :=
  match search_with_provider sys p q ty with
  | .error e => (.raised e, [.adapterCall p])
  | .ok results =>
    if results = [] then (.fellThrough, [.adapterCall p])
    else
      let entry : CacheEntry := ⟨results, p, now, ty⟩
      let st2 := { st with cache := evict_cache (assocSet cacheKey entry st.cache) }
      (.succeeded results st2, [.adapterCall p, .cacheStore cacheKey])

/-- The whole `try` body of one provider iteration: on attempts after the
first, evaluate the backoff expression (which raises, see `backoffExpr`)
and would sleep before the adapter call; on the first attempt go straight
to the adapter. -/
def tryBody (sys : Sys) (q ty : String) (now : ℚ) (cacheKey : String) (attempt : Nat)
    (p : String) (st : SearchState) : TryOut × List Event :=
  if attempt > 0 then
    match backoffExpr ((sys.md5hex q).take 2) with
    | .error e => (.raised e, [])
    | .ok j =>
      let r := tryAdapter sys q ty cacheKey now p st
      (r.1, .sleepEv ((2 : ℚ) ^ attempt + j) :: r.2)
  else tryAdapter sys q ty cacheKey now p st

/-- Result of the retry loops: an optional success (results and the
provider that produced them), the final state, the last caught error and
the emitted events. -/
structure LoopOut where
  success : Option (List ResultItem × String)
  state : SearchState
  lastErr : Option PyErr
  events : List Event
deriving Repr

/-- The inner `for p in providers` loop of one attempt: skip a provider
on rate-limit denial; on a caught exception record it against the breaker
and remember it; return on a non-empty result list; fall through on an
empty one. -/
def provLoop (sys : Sys) (q ty : String) (now : ℚ) (cacheKey : String) (attempt : Nat) :
    SearchState → Option PyErr → List String → LoopOut
  | st, le, [] => ⟨none, st, le, []⟩
  | st, le, p :: ps =>
    let c := check_rate_limit st p now
    if c.1 = true then
      match tryBody sys q ty now cacheKey attempt p c.2 with
      | (.raised e, evs) =>
        let st2 := record_provider_error c.2 p now
        let r := provLoop sys q ty now cacheKey attempt st2 (some e) ps
        ⟨r.success, r.state, r.lastErr, .rateCheck p true :: (evs ++ .recordError p :: r.events)⟩
      | (.succeeded results st2, evs) =>
        ⟨some (results, p), st2, le, .rateCheck p true :: evs⟩
      | (.fellThrough, evs) =>
        let r := provLoop sys q ty now cacheKey attempt c.2 le ps
        ⟨r.success, r.state, r.lastErr, .rateCheck p true :: (evs ++ r.events)⟩
    else
      let r := provLoop sys q ty now cacheKey attempt c.2 le ps
      ⟨r.success, r.state, r.lastErr, .rateCheck p false :: r.events⟩

/-- The outer `for attempt in range(3)` loop. -/
def attemptLoop (sys : Sys) (q ty : String) (now : ℚ) (cacheKey : String)
    (providers : List String) :
    SearchState → Option PyErr → List Nat → LoopOut
  | st, le, [] => ⟨none, st, le, []⟩
  | st, le, a :: as =>
    let r := provLoop sys q ty now cacheKey a st le providers
    match r.success with
    | some s => ⟨some s, r.state, r.lastErr, r.events⟩
    | none =>
      let r2 := attemptLoop sys q ty now cacheKey providers r.state r.lastErr as
      ⟨r2.success, r2.state, r2.lastErr, r.events ++ r2.events⟩

/-- The return value of `NovaSearch.search`, one constructor per shape of
returned dict:
`emptyQuery` is `{'error': 'Empty query', 'results': []}`;
`cachedHit r p q` is `{'results': r, 'provider': p, 'cached': True, 'query': q}`;
`success r p q` is `{'results': r, 'provider': p, 'cached': False, 'query': q}`;
`failure e q` is `{'error': e, 'query': q, 'results': []}`. -/
inductive SearchResult where
  | emptyQuery
  | cachedHit (results : List ResultItem) (provider : String) (query : String)
  | success (results : List ResultItem) (provider : String) (query : String)
  | failure (error : String) (query : String)
deriving DecidableEq, Repr

/-- The `'error'` field of a returned dict, when present. -/
def SearchResult.errorStr : SearchResult → Option String
  | .emptyQuery => some "Empty query"
  | .failure e _ => some e
  | _ => none

/-- The `'results'` field of a returned dict. -/
def SearchResult.resultsList : SearchResult → List ResultItem
  | .emptyQuery => []
  | .failure _ _ => []
  | .cachedHit r _ _ => r
  | .success r _ _ => r

/-- The cache-miss path of `search` (lines 219-261) after the provider
list has been resolved: the attempt loop, and the terminal failure dict
rendering `str(last_error)` (`"None"` when no error was ever caught). -/
def searchMiss (sys : Sys) (now : ℚ) (q ty : String) (provs : List String)
    (st1 : SearchState) (cacheKey : String) : SearchResult × SearchState × List Event :=
  let r := attemptLoop sys q ty now cacheKey provs st1 none [0, 1, 2]
  match r.success with
  | some s => (.success s.1 s.2 q, r.state, r.events)
  | none => (.failure (pyStrOpt r.lastErr) q, r.state, r.events)

/-- `NovaSearch.search`: sanitize (rejecting an empty sanitized query),
check the cache, resolve the provider list
(`[provider] if provider else self._get_provider_order()`), then run the
provider/attempt loops. -/
def search (sys : Sys) (st : SearchState) (now : ℚ) (query ty : String)
    (provider : Option String) : SearchResult × SearchState × List Event :=
  let q := sanitize_query query
  if q = "" then (.emptyQuery, st, [])
  else
    let cacheKey := get_cache_key sys q ty
    let pr := match provider with
      | some p => if p = "" then get_provider_order st now else ([p], st)
      | none => get_provider_order st now
    match lookupA cacheKey st.cache with
    | some c =>
      if is_cache_valid c q now then (.cachedHit c.results c.provider q, st, [])
      else searchMiss sys now q ty pr.1 pr.2 cacheKey
    | none => searchMiss sys now q ty pr.1 pr.2 cacheKey

/-- The configured rate-limit table of `__init__`. -/
def initBuckets : List (String × Bucket) :=
  [("brave", ⟨60, 60, 1⟩), ("google", ⟨60, 60, 1⟩), ("duckduckgo", ⟨30, 30, 1/2⟩)]

/-- A fresh `NovaSearch` instance (empty cache snapshot on disk). -/
def initState : SearchState := ⟨[], [], initBuckets, none⟩

/-- The rate-bucket well-formedness invariant of the spec:
`0 <= tokens <= capacity` for every configured bucket, together with
non-negativity of the configured refill rate. -/
def RateWF (st : SearchState) : Prop :=
  ∀ kv ∈ st.rateLimit, 0 ≤ kv.2.tokens ∧ kv.2.tokens ≤ kv.2.max ∧ 0 ≤ kv.2.refillRate

/-- All recorded `_last_refill` stamps are at most `t`. -/
def ClockLE (st : SearchState) (t : ℚ) : Prop :=
  ∀ kv ∈ st.lastRefill.getD [], kv.2 ≤ t

/-- Boolean form of `ClockLE`. -/
def clockLEb (st : SearchState) (t : ℚ) : Bool :=
  (st.lastRefill.getD []).all fun kv => decide (kv.2 ≤ t)

/-- A sequence of `_check_rate_limit` calls happens at monotone wall-clock
times: each call's `now` is at least every refill stamp recorded so far. -/
def chronOK : SearchState → List (String × ℚ) → Bool
  | _, [] => true
  | st, c :: rest => clockLEb st c.2 && chronOK (check_rate_limit st c.1 c.2).2 rest

/-- The intermediate states of a sequence of `_check_rate_limit` calls. -/
def rateRun : SearchState → List (String × ℚ) → List SearchState
  | _, [] => []
  | st, c :: rest =>
    (check_rate_limit st c.1 c.2).2 :: rateRun (check_rate_limit st c.1 c.2).2 rest

/-- The cache-lookup guard of `search` line 211 fails: the key is absent
or the entry is stale. -/
def cacheMissB (st : SearchState) (key q : String) (now : ℚ) : Bool :=
  match lookupA key st.cache with
  | none => true
  | some c => !is_cache_valid c q now

/-- Oracle instance for concrete runs: a fixed hex digest and adapters that
always return an empty result list. -/
def sysEmptyRes : Sys :=
  ⟨fun _ => "0123456789abcdef0123456789abcdef", fun _ _ _ => .ok []⟩

/-- A concrete result item whose URL carries a tracking parameter. -/
def itemUtm : ResultItem :=
  ⟨"Example", "https://example.com/?utm_source=news&q=1", "An example result", "brave"⟩

/-- Oracle instance whose adapters always return the single result `itemUtm`. -/
def sysOneRes : Sys :=
  ⟨fun _ => "0123456789abcdef0123456789abcdef", fun _ _ _ => .ok [itemUtm]⟩

/-- A fresh instance except that provider "brave" already has 3 recorded
errors (breaker closed). -/
def stErr3 : SearchState := ⟨[], [("brave", ⟨3, false, 0⟩)], initBuckets, none⟩

/-- A state whose brave bucket is drained to 0 tokens, as after 60 granted
calls at time 0. -/
def stDrained : SearchState :=
  ⟨[], [], [("brave", ⟨0, 60, 1⟩), ("google", ⟨60, 60, 1⟩), ("duckduckgo", ⟨30, 30, 1/2⟩)],
   some [("brave", 0)]⟩

/-- Iterated `_record_provider_error` for one provider, one call per
listed timestamp (in order). -/
def recordErrs (st : SearchState) (p : String) : List ℚ → SearchState
  | [] => st
  | t :: ts => recordErrs (record_provider_error st p t) p ts

/-- Single-call contract of `_check_rate_limit` on provider `p` at time
`now`: well-formedness (`0 ≤ tokens ≤ capacity`, non-negative refill
rate) is preserved; other providers' buckets are untouched; an
unconfigured provider is granted with no state change; and for a
configured bucket the tokens first move to the refilled value
(`min(capacity, tokens + elapsed·rate)`, never below the old tokens and
never above capacity), then decrease by exactly 1 iff the request is
granted (`refilled ≥ 1`) and stay at the refilled value iff it is denied
(`refilled < 1`). -/
def RateStepOK (st : SearchState) (p : String) (now : ℚ) : Prop :=
  RateWF (check_rate_limit st p now).2 ∧
  (∀ q', q' ≠ p → lookupA q' (check_rate_limit st p now).2.rateLimit = lookupA q' st.rateLimit) ∧
  (lookupA p st.rateLimit = none →
    (check_rate_limit st p now).1 = true ∧ (check_rate_limit st p now).2 = st) ∧
  (∀ b, lookupA p st.rateLimit = some b →
    b.tokens ≤ refilledTokens st b p now ∧
    refilledTokens st b p now ≤ b.max ∧
    ((check_rate_limit st p now).1 = true →
      1 ≤ refilledTokens st b p now ∧
      lookupA p (check_rate_limit st p now).2.rateLimit
        = some { b with tokens := refilledTokens st b p now - 1 }) ∧
    ((check_rate_limit st p now).1 = false →
      refilledTokens st b p now < 1 ∧
      lookupA p (check_rate_limit st p now).2.rateLimit
        = some { b with tokens := refilledTokens st b p now }))

/-- A concrete 1001-entry cache: key `i`, timestamp `i`. -/
def cache1001 : List (String × CacheEntry) :=
  (List.range 1001).map fun (i : Nat) => (toString i, ⟨[], "brave", (i : ℚ), "web"⟩)

/- ===================== helper lemmas ===================== -/

theorem lookupA_assocSet_self {α : Type} (k : String) (v : α) (l : List (String × α)) :
    lookupA k (assocSet k v l) = some v := by
  induction l with
  | nil => simp [assocSet, lookupA]
  | cons hd t ih =>
    obtain ⟨k', v'⟩ := hd
    by_cases hk : k' = k
    · simp [assocSet, hk, lookupA]
    · simp [assocSet, hk, lookupA, ih]

theorem lookupA_assocSet_ne {α : Type} {k' k : String} (v : α) (l : List (String × α))
    (hk : k' ≠ k) : lookupA k' (assocSet k v l) = lookupA k' l := by
  have hk2 : k ≠ k' := Ne.symm hk
  induction l with
  | nil => simp [assocSet, lookupA, hk2]
  | cons hd t ih =>
    obtain ⟨k0, v0⟩ := hd
    by_cases h0 : k0 = k
    · subst h0
      simp [assocSet, lookupA, hk2]
    · simp only [assocSet, if_neg h0, lookupA]
      by_cases h1 : k0 = k'
      · simp [h1]
      · simp [h1, ih]

theorem mem_assocSet {α : Type} {kv : String × α} {k : String} {v : α}
    {l : List (String × α)} (h : kv ∈ assocSet k v l) : kv = (k, v) ∨ kv ∈ l := by
  induction l with
  | nil => simpa [assocSet] using h
  | cons hd t ih =>
    obtain ⟨k0, v0⟩ := hd
    by_cases h0 : k0 = k
    · simp only [assocSet, if_pos h0, List.mem_cons] at h
      rcases h with h | h
      · exact .inl h
      · exact .inr (List.mem_cons_of_mem _ h)
    · simp only [assocSet, if_neg h0, List.mem_cons] at h
      rcases h with h | h
      · exact .inr (by simp [h])
      · rcases ih h with h' | h'
        · exact .inl h'
        · exact .inr (List.mem_cons_of_mem _ h')

theorem lookupA_mem {α : Type} {k : String} {v : α} :
    ∀ {l : List (String × α)}, lookupA k l = some v → (k, v) ∈ l := by
  intro l
  induction l with
  | nil => intro h; simp [lookupA] at h
  | cons hd t ih =>
    obtain ⟨k0, v0⟩ := hd
    intro h
    by_cases h0 : k0 = k
    · subst h0
      simp only [lookupA, if_true, eq_self_iff_true, Option.some.injEq] at h
      subst h
      exact List.mem_cons_self _ _
    · simp only [lookupA, if_neg h0] at h
      exact List.mem_cons_of_mem _ (ih h)

/- ===================== C8 ===================== -/

/-- C8: for every input whose sanitized form is empty, `search` returns
the `{'error': 'Empty query', 'results': []}` dict, leaves the state
(cache, rate buckets, breaker stats) completely untouched, performs no
observable effect (no rate-limit check, no adapter call, no breaker
recording, no cache store), and this holds for every oracle, so no
provider adapter can have been consulted. -/
theorem C8_empty_query_rejected (sys : Sys) (st : SearchState) (now : ℚ)
    (query ty : String) (provider : Option String)
    (h : sanitize_query query = "") :
    search sys st now query ty provider = (.emptyQuery, st, []) ∧
    (search sys st now query ty provider).1.errorStr = some "Empty query" ∧
    (search sys st now query ty provider).1.resultsList = [] := by
  have hs : search sys st now query ty provider = (.emptyQuery, st, []) := by
    simp [search, h]
  refine ⟨hs, ?_, ?_⟩ <;> rw [hs] <;> rfl

/-- Witness for C8 at the concrete query `";;"` (sanitizes to empty). -/
theorem C8_empty_query_rejected_witness :
    sanitize_query ";;" = "" ∧
    search sysEmptyRes initState 0 ";;" "web" none = (.emptyQuery, initState, []) :=
  ⟨by decide, (C8_empty_query_rejected sysEmptyRes initState 0 ";;" "web" none (by decide)).1⟩

/- ===================== C2 ===================== -/

/-- C2 (code bug): on every attempt after the first, the loop body does
not sleep and does not reach the adapter: the backoff expression
`(md5(query).hexdigest()[0:2] % 10) / 10` applies `%` to a `str` and an
`int` and raises a `TypeError`, which the loop body propagates as a
raised error with no emitted event (no sleep, no adapter call). -/
theorem C2_backoff_raises_typeerror (sys : Sys) (q ty : String) (now : ℚ)
    (cacheKey : String) (attempt : Nat) (p : String) (st : SearchState)
    (h : 0 < attempt) :
    tryBody sys q ty now cacheKey attempt p st
      = (.raised (backoffTypeError ((sys.md5hex q).take 2)), []) := by
  unfold tryBody
  rw [if_pos h]
  rfl

/-- Witness for C2: attempt index 1, a concrete query and oracle; the
raised exception is the CPython `%`-formatting `TypeError`. -/
theorem C2_backoff_raises_typeerror_witness :
    0 < 1 ∧
    tryBody sysEmptyRes "test" "web" 0 "0123456789abcdef0123456789abcdef" 1 "brave" initState
      = (.raised (backoffTypeError (("0123456789abcdef0123456789abcdef" : String).take 2)), []) ∧
    backoffTypeError (("0123456789abcdef0123456789abcdef" : String).take 2)
      = .typeError "not all arguments converted during string formatting" :=
  ⟨by decide,
   C2_backoff_raises_typeerror sysEmptyRes "test" "web" 0
     "0123456789abcdef0123456789abcdef" 1 "brave" initState (by decide),
   by rfl⟩

/- ===================== C1 ===================== -/

/-- C1 (code bug): a concrete successful search (provider "brave" with 3
previously recorded breaker errors, adapter returning one result) stores
the result in the cache and returns success tagged `cached=false`, but
the provider's consecutive-error count is NOT reset to zero: it is still
3 after the call. -/
theorem C1_success_does_not_reset_breaker :
    (search sysOneRes stErr3 5 "test" "web" (some "brave")).1
      = .success [itemUtm] "brave" "test" ∧
    lookupA "0123456789abcdef0123456789abcdef"
        (search sysOneRes stErr3 5 "test" "web" (some "brave")).2.1.cache
      = some ⟨[itemUtm], "brave", 5, "web"⟩ ∧
    lookupA "brave" (search sysOneRes stErr3 5 "test" "web" (some "brave")).2.1.providerStats
      = some ⟨3, false, 0⟩ := by
  refine ⟨?_, ?_, ?_⟩ <;> decide

/- ===================== C3 ===================== -/

/-- C3 (code bug): the result items a successful search places into the
cache are the adapter's items verbatim — the stored URL still contains
its `utm_source` tracking parameter, so no URL sanitization happened
before storage (`_sanitize_result` is never invoked on this path). -/
theorem C3_url_stored_with_tracking_params :
    (search sysOneRes initState 5 "test" "web" (some "brave")).1
      = .success [itemUtm] "brave" "test" ∧
    lookupA "0123456789abcdef0123456789abcdef"
        (search sysOneRes initState 5 "test" "web" (some "brave")).2.1.cache
      = some ⟨[itemUtm], "brave", 5, "web"⟩ ∧
    substrB "utm_source=" itemUtm.url = true := by
  refine ⟨?_, ?_, ?_⟩ <;> decide

/- ===================== C4 ===================== -/

theorem lookupA_record_self (st : SearchState) (p : String) (now : ℚ) :
    lookupA p (record_provider_error st p now).providerStats
      = some (bumpStat (lookupA p st.providerStats) now) := by
  unfold record_provider_error
  exact lookupA_assocSet_self p _ _

/-- C4: from an untracked provider, five recorded errors open the circuit
(stamped with the fifth error's time `s5`): `isHealthy` then returns
false at any time within the 60-second cooldown; at any time more than 60
seconds after `s5` it returns true again, resetting `isOpen` to false,
while the consecutive-error count stays 5 (no further error recorded). -/
theorem C4_breaker_threshold_and_cooldown (st0 : SearchState) (p : String)
    (s1 s2 s3 s4 s5 t t1 : ℚ)
    (h0 : lookupA p st0.providerStats = none)
    (ht : t - s5 ≤ 60) (ht1 : t1 - s5 > 60) :
    lookupA p (recordErrs st0 p [s1, s2, s3, s4, s5]).providerStats = some ⟨5, true, s5⟩ ∧
    (is_provider_healthy (recordErrs st0 p [s1, s2, s3, s4, s5]) p t).1 = false ∧
    (is_provider_healthy (recordErrs st0 p [s1, s2, s3, s4, s5]) p t1).1 = true ∧
    lookupA p (is_provider_healthy (recordErrs st0 p [s1, s2, s3, s4, s5]) p t1).2.providerStats
      = some ⟨5, false, s5⟩ := by
  have h5 : lookupA p (recordErrs st0 p [s1, s2, s3, s4, s5]).providerStats
      = some ⟨5, true, s5⟩ := by
    simp only [recordErrs, lookupA_record_self, h0]
    norm_num [bumpStat]
  refine ⟨h5, ?_, ?_, ?_⟩
  · simp only [is_provider_healthy, h5]
    simp only [if_neg (not_lt.mpr ht), if_true]
  · simp only [is_provider_healthy, h5]
    simp only [if_pos ht1, if_true]
  · simp only [is_provider_healthy, h5]
    simp only [if_pos ht1, if_true]
    exact lookupA_assocSet_self p _ _

/-- Witness for C4: provider "google" on a fresh instance, errors at
times 1..5, probe at time 10 (still open) and at time 66 (self-heals). -/
theorem C4_breaker_threshold_and_cooldown_witness :
    lookupA "google" initState.providerStats = none ∧
    (10 : ℚ) - 5 ≤ 60 ∧ (66 : ℚ) - 5 > 60 ∧
    (lookupA "google" (recordErrs initState "google" [1, 2, 3, 4, 5]).providerStats
        = some ⟨5, true, 5⟩ ∧
      (is_provider_healthy (recordErrs initState "google" [1, 2, 3, 4, 5]) "google" 10).1 = false ∧
      (is_provider_healthy (recordErrs initState "google" [1, 2, 3, 4, 5]) "google" 66).1 = true ∧
      lookupA "google"
          (is_provider_healthy (recordErrs initState "google" [1, 2, 3, 4, 5]) "google" 66).2.providerStats
        = some ⟨5, false, 5⟩) :=
  ⟨by decide, by norm_num, by norm_num,
   C4_breaker_threshold_and_cooldown initState "google" 1 2 3 4 5 10 66
     (by decide) (by norm_num) (by norm_num)⟩

/- ===================== C9 ===================== -/

theorem check_rate_limit_preserves (st : SearchState) (p : String) (now : ℚ) :
    (check_rate_limit st p now).2.providerStats = st.providerStats ∧
    (check_rate_limit st p now).2.cache = st.cache := by
  cases hl : lookupA p st.rateLimit with
  | none => simp [check_rate_limit, hl]
  | some rl =>
    simp only [check_rate_limit, hl]
    split <;> simp

/-- C9: when the rate limiter denies provider `p`, the attempt loop skips
it: the iteration continues with the remaining providers, the only
recorded effect for `p` is the denial event (no adapter call, no breaker
recording), and the denial leaves the provider-stats table (the circuit
breaker's error counts) and the cache untouched. -/
theorem C9_denial_skips_provider (sys : Sys) (q ty : String) (now : ℚ)
    (cacheKey : String) (attempt : Nat) (st : SearchState) (le : Option PyErr)
    (p : String) (ps : List String)
    (h : (check_rate_limit st p now).1 = false) :
    (provLoop sys q ty now cacheKey attempt st le (p :: ps)).success
      = (provLoop sys q ty now cacheKey attempt (check_rate_limit st p now).2 le ps).success ∧
    (provLoop sys q ty now cacheKey attempt st le (p :: ps)).state
      = (provLoop sys q ty now cacheKey attempt (check_rate_limit st p now).2 le ps).state ∧
    (provLoop sys q ty now cacheKey attempt st le (p :: ps)).lastErr
      = (provLoop sys q ty now cacheKey attempt (check_rate_limit st p now).2 le ps).lastErr ∧
    (provLoop sys q ty now cacheKey attempt st le (p :: ps)).events
      = .rateCheck p false
          :: (provLoop sys q ty now cacheKey attempt (check_rate_limit st p now).2 le ps).events ∧
    (check_rate_limit st p now).2.providerStats = st.providerStats ∧
    (check_rate_limit st p now).2.cache = st.cache := by
  have hstep : provLoop sys q ty now cacheKey attempt st le (p :: ps)
      = ⟨(provLoop sys q ty now cacheKey attempt (check_rate_limit st p now).2 le ps).success,
         (provLoop sys q ty now cacheKey attempt (check_rate_limit st p now).2 le ps).state,
         (provLoop sys q ty now cacheKey attempt (check_rate_limit st p now).2 le ps).lastErr,
         .rateCheck p false
           :: (provLoop sys q ty now cacheKey attempt (check_rate_limit st p now).2 le ps).events⟩ := by
    simp only [provLoop, h]
    simp
  refine ⟨?_, ?_, ?_, ?_, (check_rate_limit_preserves st p now).1,
    (check_rate_limit_preserves st p now).2⟩ <;> rw [hstep]

/-- Witness for C9: the drained brave bucket denies at time 0; the loop
skips brave and the breaker table is untouched. -/
theorem C9_denial_skips_provider_witness :
    (check_rate_limit stDrained "brave" 0).1 = false ∧
    ((provLoop sysEmptyRes "test" "web" 0 "k" 0 stDrained none ["brave"]).success
        = (provLoop sysEmptyRes "test" "web" 0 "k" 0
            (check_rate_limit stDrained "brave" 0).2 none []).success ∧
      (provLoop sysEmptyRes "test" "web" 0 "k" 0 stDrained none ["brave"]).state
        = (provLoop sysEmptyRes "test" "web" 0 "k" 0
            (check_rate_limit stDrained "brave" 0).2 none []).state ∧
      (provLoop sysEmptyRes "test" "web" 0 "k" 0 stDrained none ["brave"]).lastErr
        = (provLoop sysEmptyRes "test" "web" 0 "k" 0
            (check_rate_limit stDrained "brave" 0).2 none []).lastErr ∧
      (provLoop sysEmptyRes "test" "web" 0 "k" 0 stDrained none ["brave"]).events
        = .rateCheck "brave" false
            :: (provLoop sysEmptyRes "test" "web" 0 "k" 0
                 (check_rate_limit stDrained "brave" 0).2 none []).events ∧
      (check_rate_limit stDrained "brave" 0).2.providerStats = stDrained.providerStats ∧
      (check_rate_limit stDrained "brave" 0).2.cache = stDrained.cache) := by
  have h : (check_rate_limit stDrained "brave" 0).1 = false := by
    norm_num [check_rate_limit, refilledTokens, lookupA, stDrained, min_def]
  exact ⟨h, C9_denial_skips_provider sysEmptyRes "test" "web" 0 "k" 0 stDrained none
    "brave" [] h⟩

/- ===================== C7 ===================== -/

theorem foldl_filter_mem {ds : List Char} :
    ∀ {l : List Char} {a : Char},
      a ∈ ds.foldl (fun acc c => acc.filter (fun x => decide (x ≠ c))) l
        ↔ a ∈ l ∧ ∀ c ∈ ds, a ≠ c := by
  induction ds with
  | nil => intro l a; simp
  | cons d ds ih =>
    intro l a
    simp only [List.foldl_cons]
    rw [ih]
    simp only [List.mem_filter, decide_eq_true_eq, List.mem_cons]
    constructor
    · rintro ⟨⟨h1, h2⟩, h3⟩
      exact ⟨h1, fun c hc => hc.elim (fun he => he ▸ h2) (h3 c)⟩
    · rintro ⟨h1, h2⟩
      exact ⟨⟨h1, h2 d (.inl rfl)⟩, fun c hc => h2 c (.inr hc)⟩

theorem foldl_filter_eq_self {ds : List Char} :
    ∀ {l : List Char}, (∀ a ∈ l, ∀ c ∈ ds, a ≠ c) →
      ds.foldl (fun acc c => acc.filter (fun x => decide (x ≠ c))) l = l := by
  induction ds with
  | nil => intro l _; simp
  | cons d ds ih =>
    intro l h
    simp only [List.foldl_cons]
    have hf : l.filter (fun x => decide (x ≠ d)) = l :=
      List.filter_eq_self.mpr fun a ha => by
        simpa using h a ha d (List.mem_cons_self _ _)
    rw [hf]
    exact ih fun a ha c hc => h a ha c (List.mem_cons_of_mem _ hc)

theorem removeDangerous_mem {l : List Char} {a : Char} :
    a ∈ removeDangerous l ↔ a ∈ l ∧ ∀ c ∈ dangerousChars, a ≠ c :=
  foldl_filter_mem

theorem removeDangerous_eq_self {l : List Char}
    (h : ∀ a ∈ l, ∀ c ∈ dangerousChars, a ≠ c) : removeDangerous l = l :=
  foldl_filter_eq_self h

theorem foldl_filter_length_le {ds : List Char} :
    ∀ {l : List Char},
      (ds.foldl (fun acc c => acc.filter (fun x => decide (x ≠ c))) l).length ≤ l.length := by
  induction ds with
  | nil => intro l; simp
  | cons d ds ih =>
    intro l
    simp only [List.foldl_cons]
    exact le_trans ih (List.length_filter_le _ _)

theorem pyStrip_mem {l : List Char} {a : Char} (h : a ∈ pyStrip l) : a ∈ l := by
  unfold pyStrip at h
  rw [List.mem_reverse] at h
  have h2 := (List.dropWhile_sublist pySpace).mem h
  rw [List.mem_reverse] at h2
  exact (List.dropWhile_sublist pySpace).mem h2

theorem pyStrip_length_le (l : List Char) : (pyStrip l).length ≤ l.length := by
  unfold pyStrip
  rw [List.length_reverse]
  calc ((l.dropWhile pySpace).reverse.dropWhile pySpace).length
      ≤ (l.dropWhile pySpace).reverse.length := (List.dropWhile_sublist pySpace).length_le
    _ = (l.dropWhile pySpace).length := List.length_reverse _
    _ ≤ l.length := (List.dropWhile_sublist pySpace).length_le

theorem dropWhile_idem {p : Char → Bool} (l : List Char) :
    List.dropWhile p (List.dropWhile p l) = List.dropWhile p l := by
  induction l with
  | nil => simp
  | cons a t ih =>
    by_cases h : p a
    · simp [List.dropWhile_cons, h, ih]
    · simp [List.dropWhile_cons, h]

theorem dropWhile_cons_false {p : Char → Bool} :
    ∀ {l : List Char} {b : Char} {t : List Char},
      List.dropWhile p l = b :: t → p b = false := by
  intro l
  induction l with
  | nil => intro b t h; simp at h
  | cons a l ih =>
    intro b t h
    rw [List.dropWhile_cons] at h
    by_cases hpa : p a
    · rw [if_pos hpa] at h
      exact ih h
    · rw [if_neg hpa] at h
      injection h with h1 h2
      subst h1
      simpa using hpa

theorem dropWhile_pyStrip (l : List Char) :
    (pyStrip l).dropWhile pySpace = pyStrip l := by
  cases hBe : pyStrip l with
  | nil => simp
  | cons b B' =>
    have hpre : pyStrip l <+: l.dropWhile pySpace := by
      rw [← List.reverse_suffix]
      unfold pyStrip
      rw [List.reverse_reverse]
      exact List.dropWhile_suffix pySpace
    rw [hBe] at hpre
    obtain ⟨t, ht⟩ := hpre
    have hA : l.dropWhile pySpace = b :: (B' ++ t) := by rw [← ht]; simp
    have hpb : pySpace b = false := dropWhile_cons_false hA
    rw [List.dropWhile_cons, if_neg (by simp [hpb])]

theorem pyStrip_idem (l : List Char) : pyStrip (pyStrip l) = pyStrip l := by
  show (((pyStrip l).dropWhile pySpace).reverse.dropWhile pySpace).reverse = pyStrip l
  rw [dropWhile_pyStrip]
  have hrev : (pyStrip l).reverse = List.dropWhile pySpace (l.dropWhile pySpace).reverse := by
    unfold pyStrip
    rw [List.reverse_reverse]
  rw [hrev, dropWhile_idem, ← hrev, List.reverse_reverse]

/-- C7: the query sanitizer is idempotent:
`sanitize(sanitize(q)) = sanitize(q)` for every string `q`. -/
theorem C7_sanitize_idempotent (q : String) :
    sanitize_query (sanitize_query q) = sanitize_query q := by
  by_cases hq : q = ""
  · simp [sanitize_query, hq]
  · have hsq : sanitize_query q = String.mk (pyStrip (removeDangerous (q.data.take 500))) := by
      rw [sanitize_query, if_neg hq]
    set r : List Char := pyStrip (removeDangerous (q.data.take 500)) with hr
    rw [hsq]
    by_cases hr0 : String.mk r = ""
    · rw [hr0]
      simp [sanitize_query]
    · rw [sanitize_query, if_neg hr0]
      have hdata : (String.mk r).data = r := rfl
      rw [hdata]
      have hlen : r.length ≤ 500 := by
        calc r.length ≤ (removeDangerous (q.data.take 500)).length := by
              rw [hr]; exact pyStrip_length_le _
          _ ≤ (q.data.take 500).length := foldl_filter_length_le
          _ ≤ 500 := by simp
      rw [List.take_of_length_le hlen]
      have hclean : ∀ a ∈ r, ∀ c ∈ dangerousChars, a ≠ c := by
        intro a ha
        rw [hr] at ha
        exact (removeDangerous_mem.mp (pyStrip_mem ha)).2
      rw [removeDangerous_eq_self hclean]
      rw [hr, pyStrip_idem]

/- ===================== C5 ===================== -/

/-- C5: on a cache of 1001 entries (as immediately after an insert that
overflows the bound), eviction keeps exactly 1000 entries, every kept
entry comes from the original cache, and every evicted entry's `storedAt`
timestamp is at most every kept entry's timestamp — the retained set is
the 1000 most-recently-stored entries. -/
theorem C5_eviction_keeps_newest_1000 (cache : List (String × CacheEntry))
    (h : cache.length = 1001) :
    (evict_cache cache).length = 1000 ∧
    (∀ e ∈ evict_cache cache, e ∈ cache) ∧
    (∀ d ∈ cache, d ∉ evict_cache cache →
      ∀ k ∈ evict_cache cache, d.2.timestamp ≤ k.2.timestamp) := by
  have hgt : cache.length > maxCacheSize := by
    rw [h]
    norm_num [maxCacheSize]
  set le : String × CacheEntry → String × CacheEntry → Bool :=
    fun a b => decide (b.2.timestamp ≤ a.2.timestamp) with hle
  have hev : evict_cache cache = (cache.mergeSort le).take maxCacheSize := by
    rw [evict_cache, if_pos hgt]
  have hperm : List.Perm (cache.mergeSort le) cache := List.mergeSort_perm cache le
  have hlen : (cache.mergeSort le).length = 1001 := by rw [hperm.length_eq, h]
  have htrans : ∀ a b c : String × CacheEntry, le a b → le b c → le a c := by
    intro a b c hab hbc
    simp only [hle, decide_eq_true_eq] at *
    exact le_trans hbc hab
  have htotal : ∀ a b : String × CacheEntry, le a b || le b a := by
    intro a b
    simp only [hle, Bool.or_eq_true, decide_eq_true_eq]
    exact le_total b.2.timestamp a.2.timestamp
  have hsorted := List.sorted_mergeSort htrans htotal cache
  refine ⟨?_, ?_, ?_⟩
  · rw [hev, List.length_take, hlen]
    norm_num [maxCacheSize]
  · intro e he
    rw [hev] at he
    exact hperm.mem_iff.mp (List.mem_of_mem_take he)
  · intro d hd hdn k hk
    rw [hev] at hdn hk
    have hdm : d ∈ cache.mergeSort le := hperm.mem_iff.mpr hd
    have hsplit := List.take_append_drop maxCacheSize (cache.mergeSort le)
    have hdd : d ∈ (cache.mergeSort le).drop maxCacheSize := by
      rcases List.mem_append.mp (by rw [hsplit]; exact hdm) with h1 | h1
      · exact absurd h1 hdn
      · exact h1
    have hpw := hsorted
    rw [← hsplit] at hpw
    have hkd := (List.pairwise_append.mp hpw).2.2 k hk d hdd
    simpa [hle] using hkd

/-- Witness for C5: the concrete 1001-entry cache with distinct
timestamps 0..1000. -/
theorem C5_eviction_keeps_newest_1000_witness :
    cache1001.length = 1001 ∧
    ((evict_cache cache1001).length = 1000 ∧
      (∀ e ∈ evict_cache cache1001, e ∈ cache1001) ∧
      (∀ d ∈ cache1001, d ∉ evict_cache cache1001 →
        ∀ k ∈ evict_cache cache1001, d.2.timestamp ≤ k.2.timestamp)) :=
  ⟨by rw [cache1001, List.length_map]; exact List.length_range 1001,
   C5_eviction_keeps_newest_1000 cache1001
     (by rw [cache1001, List.length_map]; exact List.length_range 1001)⟩

/- ===================== C6 ===================== -/

theorem clockLEb_true {st : SearchState} {t : ℚ} (h : clockLEb st t = true) :
    ClockLE st t := by
  intro kv hkv
  have := List.all_eq_true.mp h kv hkv
  simpa using this

theorem check_rate_limit_step (st : SearchState) (p : String) (now : ℚ)
    (hwf : RateWF st) (hck : ClockLE st now) : RateStepOK st p now := by
  cases hl : lookupA p st.rateLimit with
  | none =>
    refine ⟨?_, ?_, ?_, ?_⟩
    · simpa [check_rate_limit, hl] using hwf
    · intro q' _
      simp [check_rate_limit, hl]
    · intro _
      simp [check_rate_limit, hl]
    · intro b hb
      rw [hl] at hb
      cases hb
  | some rl =>
    obtain ⟨h1, h2, h3⟩ := hwf (p, rl) (lookupA_mem hl)
    have hT : rl.tokens ≤ refilledTokens st rl p now ∧
        refilledTokens st rl p now ≤ rl.max ∧ 0 ≤ refilledTokens st rl p now := by
      unfold refilledTokens
      cases hm : st.lastRefill with
      | none => exact ⟨le_refl _, h2, h1⟩
      | some m =>
        have hlast : (lookupA p m).getD now ≤ now := by
          cases hv : lookupA p m with
          | none => simp
          | some v =>
            have hmem : (p, v) ∈ st.lastRefill.getD [] := by
              rw [hm]
              exact lookupA_mem hv
            simpa [hv] using hck (p, v) hmem
        have hnn : 0 ≤ (now - (lookupA p m).getD now) * rl.refillRate :=
          mul_nonneg (sub_nonneg.mpr hlast) h3
        refine ⟨le_min h2 (le_add_of_nonneg_right hnn), min_le_left _ _,
          le_trans h1 (le_min h2 (le_add_of_nonneg_right hnn))⟩
    obtain ⟨hTtok, hTmax, hT0⟩ := hT
    by_cases hgr : 1 ≤ refilledTokens st rl p now
    · refine ⟨?_, ?_, ?_, ?_⟩
      · intro kv hkv
        simp only [check_rate_limit, hl, if_pos hgr] at hkv
        rcases mem_assocSet hkv with h | h
        · rw [h]
          refine ⟨by simpa using hgr, ?_, h3⟩
          exact le_trans (sub_le_self _ zero_le_one) hTmax
        · exact hwf kv h
      · intro q' hq'
        simp only [check_rate_limit, hl, if_pos hgr]
        exact lookupA_assocSet_ne _ _ (fun he => hq' he)
      · intro hnone
        rw [hl] at hnone
        cases hnone
      · intro b hb
        rw [hl] at hb
        injection hb with hb
        subst hb
        refine ⟨hTtok, hTmax, ?_, ?_⟩
        · intro _
          refine ⟨hgr, ?_⟩
          simp only [check_rate_limit, hl, if_pos hgr]
          exact lookupA_assocSet_self _ _ _
        · intro hfalse
          simp only [check_rate_limit, hl, if_pos hgr] at hfalse
          cases hfalse
    · have hlt : refilledTokens st rl p now < 1 := not_le.mp hgr
      refine ⟨?_, ?_, ?_, ?_⟩
      · intro kv hkv
        simp only [check_rate_limit, hl, if_neg hgr] at hkv
        rcases mem_assocSet hkv with h | h
        · rw [h]
          exact ⟨hT0, hTmax, h3⟩
        · exact hwf kv h
      · intro q' hq'
        simp only [check_rate_limit, hl, if_neg hgr]
        exact lookupA_assocSet_ne _ _ (fun he => hq' he)
      · intro hnone
        rw [hl] at hnone
        cases hnone
      · intro b hb
        rw [hl] at hb
        injection hb with hb
        subst hb
        refine ⟨hTtok, hTmax, ?_, ?_⟩
        · intro htrue
          simp only [check_rate_limit, hl, if_neg hgr] at htrue
          cases htrue
        · intro _
          refine ⟨hlt, ?_⟩
          simp only [check_rate_limit, hl, if_neg hgr]
          exact lookupA_assocSet_self _ _ _

theorem rateRun_WF : ∀ (calls : List (String × ℚ)) (st : SearchState),
    RateWF st → chronOK st calls = true → ∀ s ∈ rateRun st calls, RateWF s := by
  intro calls
  induction calls with
  | nil =>
    intro st _ _ s hs
    simp [rateRun] at hs
  | cons c rest ih =>
    intro st hwf hch s hs
    rw [chronOK, Bool.and_eq_true] at hch
    have hwf' : RateWF (check_rate_limit st c.1 c.2).2 :=
      (check_rate_limit_step st c.1 c.2 hwf (clockLEb_true hch.1)).1
    rw [rateRun] at hs
    rcases List.mem_cons.mp hs with h | h
    · rw [h]
      exact hwf'
    · exact ih _ hwf' hch.2 s h

/-- C6: over every monotone-clock sequence of `_check_rate_limit` calls
from a well-formed state, `0 ≤ tokens ≤ capacity` holds in every
intermediate state; and every single call obeys the token-bucket
contract `RateStepOK`: tokens move only by the elapsed-time refill
(capped at capacity, never decreasing below the pre-refill value), then
drop by exactly 1 on a granted request and not at all on a denied one,
leaving all other providers' buckets untouched. -/
theorem C6_token_bucket_invariant (st0 : SearchState) (calls : List (String × ℚ))
    (h0 : RateWF st0) (hc : chronOK st0 calls = true) :
    (∀ s ∈ rateRun st0 calls, RateWF s) ∧
    (∀ st p now, RateWF st → ClockLE st now → RateStepOK st p now) :=
  ⟨rateRun_WF calls st0 h0 hc,
   fun st p now hwf hck => check_rate_limit_step st p now hwf hck⟩

/-- Witness for C6: the fresh instance and two brave calls at times 0
and 1. -/
theorem C6_token_bucket_invariant_witness :
    RateWF initState ∧
    chronOK initState [("brave", 0), ("brave", 1)] = true ∧
    ((∀ s ∈ rateRun initState [("brave", 0), ("brave", 1)], RateWF s) ∧
      (∀ st p now, RateWF st → ClockLE st now → RateStepOK st p now)) := by
  have h0 : RateWF initState := by
    intro kv hkv
    simp only [initState, initBuckets, List.mem_cons, List.not_mem_nil, or_false] at hkv
    rcases hkv with h | h | h <;> subst h <;> norm_num
  have hc : chronOK initState [("brave", 0), ("brave", 1)] = true := by
    norm_num [chronOK, clockLEb, check_rate_limit, refilledTokens, lookupA, assocSet,
      initState, initBuckets, min_def]
  exact ⟨h0, hc, C6_token_bucket_invariant initState [("brave", 0), ("brave", 1)] h0 hc⟩

/- ===================== C10 ===================== -/

theorem provLoop_all_denied (sys : Sys) (q ty : String) (now : ℚ) (cacheKey : String)
    (attempt : Nat) :
    ∀ (ps : List String) (st : SearchState) (le : Option PyErr),
      (provLoop sys q ty now cacheKey attempt st le ps).events.all Event.isDenial = true →
      (provLoop sys q ty now cacheKey attempt st le ps).success = none ∧
      (provLoop sys q ty now cacheKey attempt st le ps).lastErr = le := by
  intro ps
  induction ps with
  | nil =>
    intro st le _
    exact ⟨rfl, rfl⟩
  | cons p ps ih =>
    intro st le hall
    simp only [provLoop] at hall ⊢
    by_cases hg : (check_rate_limit st p now).1 = true
    · rw [if_pos hg] at hall ⊢
      rcases htb : tryBody sys q ty now cacheKey attempt p (check_rate_limit st p now).2
        with ⟨out, evs⟩
      rw [htb] at hall
      cases out with
      | raised e => simp [Event.isDenial] at hall
      | succeeded results st2 => simp [Event.isDenial] at hall
      | fellThrough => simp [Event.isDenial] at hall
    · rw [if_neg hg] at hall ⊢
      simp only [List.all_cons, Bool.and_eq_true] at hall
      exact ih (check_rate_limit st p now).2 le hall.2

theorem attemptLoop_all_denied (sys : Sys) (q ty : String) (now : ℚ) (cacheKey : String)
    (providers : List String) :
    ∀ (as : List Nat) (st : SearchState) (le : Option PyErr),
      (attemptLoop sys q ty now cacheKey providers st le as).events.all Event.isDenial = true →
      (attemptLoop sys q ty now cacheKey providers st le as).success = none ∧
      (attemptLoop sys q ty now cacheKey providers st le as).lastErr = le := by
  intro as
  induction as with
  | nil =>
    intro st le _
    exact ⟨rfl, rfl⟩
  | cons a as ih =>
    intro st le hall
    simp only [attemptLoop] at hall ⊢
    cases hs : (provLoop sys q ty now cacheKey a st le providers).success with
    | some s =>
      rw [hs] at hall
      have h1 := (provLoop_all_denied sys q ty now cacheKey a providers st le hall).1
      rw [hs] at h1
      simp at h1
    | none =>
      rw [hs] at hall
      have hall2 : ((provLoop sys q ty now cacheKey a st le providers).events
          ++ (attemptLoop sys q ty now cacheKey providers
               (provLoop sys q ty now cacheKey a st le providers).state
               (provLoop sys q ty now cacheKey a st le providers).lastErr as).events).all
            Event.isDenial = true := hall
      rw [List.all_append, Bool.and_eq_true] at hall2
      have h1 := provLoop_all_denied sys q ty now cacheKey a providers st le hall2.1
      have h2 := ih (provLoop sys q ty now cacheKey a st le providers).state
        (provLoop sys q ty now cacheKey a st le providers).lastErr hall2.2
      exact ⟨h2.1, h2.2.trans h1.2⟩

theorem searchMiss_all_denied (sys : Sys) (now : ℚ) (q ty : String)
    (provs : List String) (st1 : SearchState) (key : String)
    (h : (searchMiss sys now q ty provs st1 key).2.2.all Event.isDenial = true) :
    (searchMiss sys now q ty provs st1 key).1 = .failure "None" q := by
  have hEv : (searchMiss sys now q ty provs st1 key).2.2
      = (attemptLoop sys q ty now key provs st1 none [0, 1, 2]).events := by
    rw [searchMiss]
    rcases (attemptLoop sys q ty now key provs st1 none [0, 1, 2]).success <;> rfl
  rw [hEv] at h
  obtain ⟨hns, hle⟩ := attemptLoop_all_denied sys q ty now key provs [0, 1, 2] st1 none h
  rw [searchMiss, hns, hle]
  rfl

/-- C10 (amended): for every search call that misses the cache and whose
execution consists solely of rate-limiter denials (every provider denied
on every attempt — so the loop body is never entered, no adapter runs
and no exception is raised), the returned dict is
`{'error': 'None', 'query': <sanitized query>, 'results': []}` — the
string rendering of the never-assigned `last_error`. -/
theorem C10_all_denied_returns_error_None (sys : Sys) (st : SearchState) (now : ℚ)
    (query ty : String) (provider : Option String)
    (h1 : sanitize_query query ≠ "")
    (h2 : cacheMissB st (get_cache_key sys (sanitize_query query) ty) (sanitize_query query) now
      = true)
    (h3 : (search sys st now query ty provider).2.2.all Event.isDenial = true) :
    (search sys st now query ty provider).1 = .failure "None" (sanitize_query query) := by
  have hs : search sys st now query ty provider
      = searchMiss sys now (sanitize_query query) ty
          (match provider with
            | some p => if p = "" then get_provider_order st now else ([p], st)
            | none => get_provider_order st now).1
          (match provider with
            | some p => if p = "" then get_provider_order st now else ([p], st)
            | none => get_provider_order st now).2
          (get_cache_key sys (sanitize_query query) ty) := by
    simp only [search, if_neg h1]
    cases hlook : lookupA (get_cache_key sys (sanitize_query query) ty) st.cache with
    | none => rfl
    | some c =>
      have hval : is_cache_valid c (sanitize_query query) now = false := by
        have h2' := h2
        rw [cacheMissB, hlook] at h2'
        simpa using h2'
      simp [hval]
  rw [hs] at h3 ⊢
  exact searchMiss_all_denied _ _ _ _ _ _ _ h3

/-- C10 (counterexample to the claim as stated): a concrete search in
which no provider adapter ever raises (every adapter call returns an
empty result list) and which exhausts all attempts, yet returns the
backoff TypeError's message instead of `"None"`: the loop body itself
raises on attempts 2 and 3 before reaching the adapter. -/
theorem C10_counterexample_empty_results :
    (∀ p q ty, sysEmptyRes.adapter p q ty = .ok []) ∧
    (search sysEmptyRes initState 0 "test" "web" (some "brave")).1
      = .failure "not all arguments converted during string formatting" "test" ∧
    (search sysEmptyRes initState 0 "test" "web" (some "brave")).1
      ≠ .failure "None" "test" := by
  have hmain : (search sysEmptyRes initState 0 "test" "web" (some "brave")).1
      = .failure "not all arguments converted during string formatting" "test" := by
    have hsan : sanitize_query "test" = "test" := by decide
    have hkey : get_cache_key sysEmptyRes "test" "web"
        = "0123456789abcdef0123456789abcdef" := rfl
    have htb0 : ∀ st,
        tryBody sysEmptyRes "test" "web" 0 "0123456789abcdef0123456789abcdef" 0 "brave" st
          = (.fellThrough, [.adapterCall "brave"]) := fun _ => rfl
    have htb1 : ∀ st,
        tryBody sysEmptyRes "test" "web" 0 "0123456789abcdef0123456789abcdef" 1 "brave" st
          = (.raised (.typeError "not all arguments converted during string formatting"), []) :=
      fun _ => rfl
    have htb2 : ∀ st,
        tryBody sysEmptyRes "test" "web" 0 "0123456789abcdef0123456789abcdef" 2 "brave" st
          = (.raised (.typeError "not all arguments converted during string formatting"), []) :=
      fun _ => rfl
    have hc1 : check_rate_limit initState "brave" 0
        = (true, ⟨[], [], [("brave", ⟨59, 60, 1⟩), ("google", ⟨60, 60, 1⟩),
            ("duckduckgo", ⟨30, 30, 1/2⟩)], some [("brave", 0)]⟩) := by
      simp [check_rate_limit, refilledTokens, lookupA, assocSet, initState, initBuckets]
      norm_num
    have hc2 : check_rate_limit (⟨[], [], [("brave", ⟨59, 60, 1⟩), ("google", ⟨60, 60, 1⟩),
          ("duckduckgo", ⟨30, 30, 1/2⟩)], some [("brave", 0)]⟩ : SearchState) "brave" 0
        = (true, ⟨[], [], [("brave", ⟨58, 60, 1⟩), ("google", ⟨60, 60, 1⟩),
            ("duckduckgo", ⟨30, 30, 1/2⟩)], some [("brave", 0)]⟩) := by
      simp [check_rate_limit, refilledTokens, lookupA, assocSet, min_def]
      norm_num
    have hc3 : check_rate_limit (⟨[], [("brave", ⟨1, false, 0⟩)],
          [("brave", ⟨58, 60, 1⟩), ("google", ⟨60, 60, 1⟩),
          ("duckduckgo", ⟨30, 30, 1/2⟩)], some [("brave", 0)]⟩ : SearchState) "brave" 0
        = (true, ⟨[], [("brave", ⟨1, false, 0⟩)], [("brave", ⟨57, 60, 1⟩),
            ("google", ⟨60, 60, 1⟩),
            ("duckduckgo", ⟨30, 30, 1/2⟩)], some [("brave", 0)]⟩) := by
      simp [check_rate_limit, refilledTokens, lookupA, assocSet, min_def]
      norm_num
    have hne1 : ¬ ("test" : String) = "" := by decide
    have hne2 : ¬ ("brave" : String) = "" := by decide
    have hb1 : bumpStat none (0 : ℚ) = ⟨1, false, 0⟩ := by decide
    have hb2 : bumpStat (some ⟨1, false, 0⟩) (0 : ℚ) = ⟨2, false, 0⟩ := by decide
    simp only [search, searchMiss, attemptLoop, provLoop, hsan, hkey, if_neg hne1, if_neg hne2,
      hc1, hc2, hc3, htb0, htb1, htb2, record_provider_error, hb1, hb2, lookupA, assocSet,
      pyStrOpt, PyErr.toStr, eq_self_iff_true, if_true, Option.getD]
  exact ⟨fun _ _ _ => rfl, hmain, by rw [hmain]; decide⟩

/-- Witness for the amended C10: the drained brave bucket denies on all
three attempts; the result is the `{'error': 'None', …}` dict. -/
theorem C10_all_denied_returns_error_None_witness :
    sanitize_query "test" ≠ "" ∧
    cacheMissB stDrained (get_cache_key sysEmptyRes (sanitize_query "test") "web")
      (sanitize_query "test") 0 = true ∧
    (search sysEmptyRes stDrained 0 "test" "web" (some "brave")).2.2.all Event.isDenial = true ∧
    (search sysEmptyRes stDrained 0 "test" "web" (some "brave")).1
      = .failure "None" (sanitize_query "test") := by
  have h1 : sanitize_query "test" ≠ "" := by decide
  have h2 : cacheMissB stDrained (get_cache_key sysEmptyRes (sanitize_query "test") "web")
      (sanitize_query "test") 0 = true := by decide
  have hcd : check_rate_limit stDrained "brave" 0 = (false, stDrained) := by
    simp [check_rate_limit, refilledTokens, lookupA, assocSet, stDrained, min_def]
  have hsan : sanitize_query "test" = "test" := by decide
  have hkey : get_cache_key sysEmptyRes "test" "web"
      = "0123456789abcdef0123456789abcdef" := rfl
  have hne1 : ¬ ("test" : String) = "" := by decide
  have hne2 : ¬ ("brave" : String) = "" := by decide
  have hft : ¬ (false = true) := by decide
  have h3 : (search sysEmptyRes stDrained 0 "test" "web" (some "brave")).2.2.all Event.isDenial
      = true := by
    simp only [search, searchMiss, attemptLoop, provLoop, hsan, hkey, if_neg hne1, if_neg hne2,
      if_neg hft, hcd, lookupA]
    decide
  exact ⟨h1, h2, h3, C10_all_denied_returns_error_None sysEmptyRes stDrained 0 "test" "web"
    (some "brave") h1 h2 h3⟩
